import Mathlib

/-!
# ArtemisOps — verification of the mission classifier and image resolver

Shallow embedding of the decision logic of `src/server/database.py`,
`src/server/fetcher.py` and `src/server/main.py` of the ArtemisOps
repository, together with proofs about it.

Modelling conventions:
* Python strings are Lean `String`s (the repository only ever handles
  ASCII data in the embedded code paths, so ASCII case mapping is used).
* A nullable database column / an optional dict entry is `Option String`;
  Python truthiness of such a value (`if s:`) is `truthyS` below
  (both `None` and the empty string are falsy).
* `datetime` values are integers (seconds since the epoch).
  `datetime.fromisoformat` is network of locale independent but large to
  reimplement, so every function that parses takes it as an explicit
  argument `fromiso : String → Option Int` (`none` models the
  `ValueError` the real function raises on malformed input).  The
  `.replace("Z", "+00:00")` preprocessing step is embedded explicitly.
* `timedelta.days` is floor division of the second count by 86400,
  i.e. `Int.fdiv`, exactly as in Python.
* Python's `list.sort(key=...)` is a stable sort by key; it is modelled
  by Mathlib's stable `List.insertionSort` with the induced key order.
-/

namespace ArtemisOps

/-! ## Python string primitives -/

/-- Python truthiness of an optional string: `None` and `""` are falsy. -/
def truthyS : Option String → Bool
  | none => false
  | some s => s ≠ ""

/-- Python `str.lower()` (ASCII). -/
def lowerStr (s : String) : String := String.mk (s.data.map Char.toLower)

/-- Python `\s` whitespace class (ASCII part). -/
def isPySpace (c : Char) : Bool :=
  c = ' ' || c = '\t' || c = '\n' || c = '\r' || c = '\x0b' || c = '\x0c'

/-- Python `\w` word-character class (ASCII part). -/
def isPyWord (c : Char) : Bool := c.isAlphanum || c = '_'

/-- Python `str.strip()` on character lists. -/
def stripWsL (l : List Char) : List Char :=
  ((l.dropWhile isPySpace).reverse.dropWhile isPySpace).reverse

/-- Python `str.strip()`. -/
def stripWs (s : String) : String := String.mk (stripWsL s.data)

/-- Python `s.replace("Z", "+00:00")` (every occurrence of `Z` expanded). -/
def replaceZ (s : String) : String :=
  String.mk (s.data.foldr
    (fun c acc => if c = 'Z' then '+' :: '0' :: '0' :: ':' :: '0' :: '0' :: acc else c :: acc)
    [])

/-- Does `p` hold of some suffix of the list?  Backbone of substring and
regex-fragment searching (`re.search` over a fixed pattern). -/
def searchAt (p : List Char → Bool) : List Char → Bool
  | [] => p []
  | l@(_ :: rest) => p l || searchAt p rest

/-- `needle ++ anything = l`? -/
def startsWithL : List Char → List Char → Bool
  | [], _ => true
  | _ :: _, [] => false
  | a :: as, b :: bs => a = b && startsWithL as bs

/-- Python `needle in hay` substring test. -/
def containsSub (needle hay : String) : Bool :=
  searchAt (startsWithL needle.data) hay.data

/-- Python `str.startswith`. -/
def startsWithStr (needle hay : String) : Bool := startsWithL needle.data hay.data

/-- Python `a or b` on two optional strings (first if truthy, else second). -/
def pyOrOpt (a b : Option String) : Option String := if truthyS a then a else b

/-- First entry of an ordered association list (a Python `dict` in
insertion order) whose key equals `k`. -/
def assocLookup : List (String × String) → String → Option String
  | [], _ => none
  | (k, v) :: rest, q => if k = q then some v else assocLookup rest q

/-! ## Data model (`missions` table, `database.py`) -/

/-- One row of the `missions` table (the columns the embedded logic
reads; the remaining columns — site, rocket, spacecraft, … — are carried
by the real rows but never inspected by the classifier, the sort or the
patch logic). -/
structure MissionRec where
  id : String
  name : String
  slug : String
  launch_date : Option String
  status : Option String
  image_url : Option String
  patch_url : Option String
  is_active : Int
deriving DecidableEq, Repr

/-- `COMPLETED_STATUSES` from `database.py`. -/
def COMPLETED_STATUSES : List String := ["success", "failure", "partial failure"]

/-- `ACTIVE_STATUSES` from `database.py`. -/
def ACTIVE_STATUSES : List String := ["go", "tbd", "tbc", "hold", "in flight"]

/-! ## `is_mission_active` (`database.py` lines 30–82) -/

/-- `is_mission_active(mission)` from `database.py`, with the wall clock
(`datetime.now(timezone.utc)`) passed in as `now` and
`datetime.fromisoformat` passed in as `fromiso`.  A `none` from
`fromiso` models the exception path: the bare `except: pass` falls
through exactly as in the source. -/
def is_mission_active (fromiso : String → Option Int) (now : Int) (m : MissionRec) : Bool :=
  let status := lowerStr (m.status.getD "")
  let launch_date_str := m.launch_date
  if COMPLETED_STATUSES.contains status then
    if truthyS launch_date_str then
      match fromiso (replaceZ (launch_date_str.getD "")) with
      | some launch_date =>
          decide (Int.fdiv (now - launch_date) 86400 ≤ 7)
      | none => false
    else false
  else if truthyS launch_date_str then
    match fromiso (replaceZ (launch_date_str.getD "")) with
    | some launch_date =>
        if now < launch_date then true
        else if Int.fdiv (now - launch_date) 86400 ≤ 200 then true
        else ACTIVE_STATUSES.contains status || status = ""
    | none => ACTIVE_STATUSES.contains status || status = ""
  else ACTIVE_STATUSES.contains status || status = ""

/-! ## `get_all_missions` (`database.py` lines 181–232) -/

/-- Epoch seconds of `datetime.max` (9999-12-31 23:59:59); only used as
the second sort-key component, where its exact value is irrelevant
because keys are compared lexicographically group-first. -/
def dtMaxSeconds : Int := 253402300799

/-- `sort_key(m)` from `get_all_missions`: `(0, launch)` for strictly
future launches, `(1, datetime.max - launch)` for the rest with a
parseable launch timestamp, `(2, datetime.max)` when the timestamp is
missing, empty or unparseable. -/
def sort_key (fromiso : String → Option Int) (now : Int) (m : MissionRec) : Nat × Int :=
  if truthyS m.launch_date then
    match fromiso (replaceZ (m.launch_date.getD "")) with
    | some launch_date =>
        if now < launch_date then (0, launch_date)
        else (1, dtMaxSeconds - launch_date)
    | none => (2, dtMaxSeconds)
  else (2, dtMaxSeconds)

/-- Lexicographic `≤` on Python tuples `(group, value)`. -/
def keyLe (p q : Nat × Int) : Bool :=
  decide (p.1 < q.1) || (decide (p.1 = q.1) && decide (p.2 ≤ q.2))

/-- Strict lexicographic order on character lists by code point (the
`memcmp` order SQLite's default BINARY collation uses; identical to byte
order on the ASCII data at hand). -/
def charListLt : List Char → List Char → Bool
  | [], [] => false
  | [], _ :: _ => true
  | _ :: _, [] => false
  | a :: as, b :: bs =>
      decide (a.toNat < b.toNat) || (a = b && charListLt as bs)

/-- Comparison `ORDER BY launch_date ASC` of SQLite on a nullable TEXT
column: `NULL` sorts first, strings compare lexicographically. -/
def sqlLaunchLe (a b : Option String) : Bool :=
  match a, b with
  | none, _ => true
  | some _, none => false
  | some x, some y => !charListLt y.data x.data

/-- The SQL query of `get_all_missions`:
`SELECT * FROM missions WHERE is_active = 1 ORDER BY launch_date ASC`. -/
def sqlQuery (db : List MissionRec) : List MissionRec :=
  (db.filter (fun m => m.is_active = 1)).insertionSort
    (fun a b => sqlLaunchLe a.launch_date b.launch_date = true)

/-- Lines 209–230 of `database.py`: keep the missions `is_mission_active`
accepts and stable-sort them by `sort_key`. -/
def classify_and_order (fromiso : String → Option Int) (now : Int)
    (rows : List MissionRec) : List MissionRec :=
  (rows.filter (is_mission_active fromiso now)).insertionSort
    (fun a b => keyLe (sort_key fromiso now a) (sort_key fromiso now b) = true)

/-- `get_all_missions(active_only)` from `database.py`. -/
def get_all_missions (fromiso : String → Option Int) (now : Int)
    (db : List MissionRec) (active_only : Bool) : List MissionRec :=
  let all_missions := sqlQuery db
  if !active_only then all_missions
  else classify_and_order fromiso now all_missions

/-! ## `slugify` (`fetcher.py` lines 96–101) -/

/-- Separator class of the second substitution in `slugify`:
`re.sub(r'[\s_-]+', '-', text)`. -/
def isSlugSep (c : Char) : Bool := isPySpace c || c = '_' || c = '-'

/-- Collapse every maximal run of separator characters into one `-`
(the `re.sub(r'[\s_-]+', '-', text)` step). -/
def collapseSeps : List Char → List Char
  | [] => []
  | [c] => if isSlugSep c then ['-'] else [c]
  | c :: d :: cs =>
      if isSlugSep c && isSlugSep d then collapseSeps (d :: cs)
      else (if isSlugSep c then '-' else c) :: collapseSeps (d :: cs)

/-- `slugify(text)` from `fetcher.py`: lower-case, drop characters
outside `[\w\s-]`, collapse separator runs to `-`, strip `-`. -/
def slugify (s : String) : String :=
  let lowered := s.data.map Char.toLower
  let kept := lowered.filter (fun c => isPyWord c || isPySpace c || c = '-')
  let dashed := collapseSeps kept
  String.mk (((dashed.dropWhile (fun c => c = '-')).reverse.dropWhile
    (fun c => c = '-')).reverse)

/-! ## Patch tables (`fetcher.py` lines 31–51) -/

/-- `LOCAL_PATCHES` (curated in-repository assets, keyed by mission id). -/
def LOCAL_PATCHES : List (String × String) :=
  [("artemis-ii", "/assets/patches/artemis-ii-patch.png"),
   ("artemis-iii", "/assets/patches/artemis-iii-patch.png")]

/-- `FALLBACK_PATCHES` (Wikipedia URLs keyed by substrings of the
lower-cased mission name, in dict insertion order). -/
def FALLBACK_PATCHES : List (String × String) :=
  [("artemis ii", "https://upload.wikimedia.org/wikipedia/commons/thumb/c/c7/Artemis_2_mission_patch.png/220px-Artemis_2_mission_patch.png"),
   ("artemis iii", "https://upload.wikimedia.org/wikipedia/commons/thumb/7/76/Artemis_3_mission_patch.svg/220px-Artemis_3_mission_patch.svg.png"),
   ("artemis 2", "https://upload.wikimedia.org/wikipedia/commons/thumb/c/c7/Artemis_2_mission_patch.png/220px-Artemis_2_mission_patch.png"),
   ("artemis 3", "https://upload.wikimedia.org/wikipedia/commons/thumb/7/76/Artemis_3_mission_patch.svg/220px-Artemis_3_mission_patch.svg.png"),
   ("crew dragon", "https://upload.wikimedia.org/wikipedia/commons/thumb/2/2e/SpaceX_Dragon_2_insignia.png/220px-SpaceX_Dragon_2_insignia.png"),
   ("crew-", "https://upload.wikimedia.org/wikipedia/commons/thumb/2/2e/SpaceX_Dragon_2_insignia.png/220px-SpaceX_Dragon_2_insignia.png"),
   ("starliner", "https://upload.wikimedia.org/wikipedia/commons/thumb/3/36/Boeing_CST-100_Starliner_logo.png/220px-Boeing_CST-100_Starliner_logo.png"),
   ("axiom", "https://upload.wikimedia.org/wikipedia/en/thumb/a/a2/Axiom_Space_logo.svg/220px-Axiom_Space_logo.svg.png")]

/-- The `for key, url in FALLBACK_PATCHES.items(): if key in name_lower`
loop: first table entry whose key is a substring of the name. -/
def firstSubstrMatch : List (String × String) → String → Option String
  | [], _ => none
  | (k, u) :: rest, hay =>
      if containsSub k hay then some u else firstSubstrMatch rest hay

/-! ## `is_valid_patch_url` (`fetcher.py` lines 220–265) -/

/-- Match of `re.search(r'jsc\d{4}', u)` at the head of a suffix. -/
def patJsc : List Char → Bool
  | 'j' :: 's' :: 'c' :: a :: b :: c :: d :: _ =>
      a.isDigit && b.isDigit && c.isDigit && d.isDigit
  | _ => false

/-- Match of `re.search(r'ksc-\d+', u)` at the head of a suffix. -/
def patKsc : List Char → Bool
  | 'k' :: 's' :: 'c' :: '-' :: a :: _ => a.isDigit
  | _ => false

/-- Match of `re.search(r'gsfc_\d+', u)` at the head of a suffix. -/
def patGsfc : List Char → Bool
  | 'g' :: 's' :: 'f' :: 'c' :: '_' :: a :: _ => a.isDigit
  | _ => false

/-- Match of `re.search(r'iss\d{3}', u)` at the head of a suffix. -/
def patIss : List Char → Bool
  | 'i' :: 's' :: 's' :: a :: b :: c :: _ => a.isDigit && b.isDigit && c.isDigit
  | _ => false

/-- Match of `re.search(r's\d{3}e\d+', u)` at the head of a suffix. -/
def patShuttle : List Char → Bool
  | 's' :: a :: b :: c :: 'e' :: d :: _ =>
      a.isDigit && b.isDigit && c.isDigit && d.isDigit
  | _ => false

/-- Match of `re.search(r'nh-\d+', u)` at the head of a suffix. -/
def patNh : List Char → Bool
  | 'n' :: 'h' :: '-' :: a :: _ => a.isDigit
  | _ => false

/-- The `photo_patterns` loop: does any of the six photo-identifier
regexes match somewhere in the lower-cased URL? -/
def hasPhotoPattern (uLower : String) : Bool :=
  [patJsc, patKsc, patGsfc, patIss, patShuttle, patNh].any
    (fun p => searchAt p uLower.data)

/-- `patch_indicators` from `is_valid_patch_url`. -/
def patch_indicators : List String := ["patch", "insignia", "logo", "emblem", "badge"]

/-- `is_valid_patch_url(url)` from `fetcher.py`.  (The callers guard with
Python truthiness, so the argument is the string itself; `""` is the
falsy case of the leading `if not url`.) -/
def is_valid_patch_url (url : String) : Bool :=
  if url = "" then false
  else
    let url_lower := lowerStr url
    if hasPhotoPattern url_lower then false
    else if containsSub "media/images/" url_lower && !containsSub "patch" url_lower then
      false
    else if patch_indicators.any (fun k => containsSub k url_lower) then true
    else if containsSub "wikipedia" url_lower || containsSub "wikimedia" url_lower then true
    else if startsWithStr "/assets/" url then true
    else false

/-! ## `get_mission_patch` (`fetcher.py` lines 183–217) -/

/-- `get_mission_patch(mission_name, launch_image, client)`.  The network
call `fetch_patch_from_api` is passed in as its result `api_patch`
(`none` models both "no result" and a raised-and-caught error, exactly
the two ways the real call produces `None`).  `launch_image` is the
launch photograph; as in the source it is never consulted. -/
def get_mission_patch (mission_name : String) (launch_image : Option String)
    (api_patch : Option String) : Option String :=
  let name_lower := stripWs (lowerStr mission_name)
  let mission_id := slugify mission_name
  match assocLookup LOCAL_PATCHES mission_id with
  | some p => some p
  | none =>
    match firstSubstrMatch FALLBACK_PATCHES name_lower with
    | some u => some u
    | none =>
      match api_patch with
      | some ap => if ap ≠ "" && is_valid_patch_url ap then some ap else none
      | none => none

/-- The patch-resolution block of `parse_launch_to_mission`
(`fetcher.py` lines 493–512): start from the cached `patch_url` of the
existing DB record, let a local curated patch override it, otherwise
re-fetch when the cache is empty or invalid, otherwise keep the cache. -/
def mission_patch_on_sync (name : String) (cached : Option String)
    (launch_image : Option String) (api_patch : Option String) : Option String :=
  let mission_id := slugify name
  match assocLookup LOCAL_PATCHES mission_id with
  | some p => some p
  | none =>
      if !truthyS cached || !is_valid_patch_url (cached.getD "") then
        get_mission_patch name launch_image api_patch
      else cached

/-! ## Patch surfacing in `get_mission_detail` (`main.py` lines 191–193) -/

/-- The `mission_patch` field computed by the `/api/missions/{id}`
endpoint: the stored `patch_url` if truthy, otherwise the stored launch
`image_url`. -/
def detail_mission_patch (patch_url image_url : Option String) : Option String :=
  if truthyS patch_url then patch_url else image_url

/-! ## Crew operations (`database.py` lines 321–355) -/

/-- One element of the `crew_list` argument of `upsert_crew` (a dict as
produced by `fetch_crew_for_mission` or the fallback tables; every field
is read with `.get`, hence optional). -/
structure CrewInput where
  name : Option String
  role : Option String
  agency : Option String
  photo_url : Option String
  photo : Option String
  bio : Option String
  bio_url : Option String
  nasa_bio : Option String
  api_id : Option String
deriving DecidableEq, Repr

/-- One row of the `crew` table (the AUTOINCREMENT `id` is modelled by
row position, which is how SQLite assigns it on insert). -/
structure CrewRow where
  mission_id : String
  name : Option String
  role : Option String
  agency : Option String
  photo_url : Option String
  bio : Option String
  bio_url : Option String
  api_id : Option String
  sort_order : Nat
  created_at : String
  updated_at : String
deriving DecidableEq, Repr

/-- The row the `INSERT INTO crew` of `upsert_crew` writes for the
`i`-th member: `photo_url` is `member.get('photo_url') or
member.get('photo')`, `bio_url` is `member.get('bio_url') or
member.get('nasa_bio')`, `sort_order` is the loop index. -/
def crewRowOf (mission_id : String) (now : String) (i : Nat) (member : CrewInput) : CrewRow :=
  { mission_id := mission_id
    name := member.name
    role := member.role
    agency := member.agency
    photo_url := pyOrOpt member.photo_url member.photo
    bio := member.bio
    bio_url := pyOrOpt member.bio_url member.nasa_bio
    api_id := member.api_id
    sort_order := i
    created_at := now
    updated_at := now }

/-- `upsert_crew(mission_id, crew_list)` from `database.py`:
`DELETE FROM crew WHERE mission_id = ?`, then insert the new members in
order with `sort_order = i`; `now` is the single
`datetime.now(timezone.utc).isoformat()` sampled at the top. -/
def upsert_crew (db : List CrewRow) (mission_id : String)
    (crew_list : List CrewInput) (now : String) : List CrewRow :=
  db.filter (fun r => r.mission_id ≠ mission_id)
    ++ crew_list.enum.map (fun p => crewRowOf mission_id now p.1 p.2)

/-- `get_crew(mission_id)` from `database.py`:
`SELECT * FROM crew WHERE mission_id = ? ORDER BY sort_order ASC`. -/
def get_crew (db : List CrewRow) (mission_id : String) : List CrewRow :=
  (db.filter (fun r => r.mission_id = mission_id)).insertionSort
    (fun a b => a.sort_order ≤ b.sort_order)

/-! ## `sync_all_missions` (`fetcher.py` lines 638–685) -/

/-- One `sync_log` row: `(source, status, missions_updated,
error_message)`. -/
structure SyncLogRow where
  source : String
  status : String
  missions_updated : Nat
  error_message : Option String
deriving DecidableEq, Repr

/-- The result dict and the externally visible state after
`sync_all_missions`. -/
structure SyncOutcome (δ : Type) where
  status : String
  missions_updated : Nat
  errors : List String
  db : δ
  log : List SyncLogRow
deriving DecidableEq

/-- The `f"Error syncing {mission.get('name')}: {e}"` message. -/
def syncErrMsg (name : String) (e : String) : String :=
  "Error syncing " ++ name ++ ": " ++ e

/-- The per-mission loop of `sync_all_missions` over an abstract mission
store `δ`.  `upsert` is the fallible `upsert_mission` call (`Except`
models a raised exception); `post` is the remainder of the loop body
(crew fetch/upsert and milestone upsert, which perform network and DB
I/O), returning the possibly partially updated store and an optional
raised error.  A failure of either is appended to `errors` and the loop
continues with the next mission; `missions_updated` counts only
successful upserts, incremented before `post` runs, as in the source. -/
def sync_loop {δ : Type} (upsert : MissionRec → δ → Except String δ)
    (post : MissionRec → δ → δ × Option String) :
    List MissionRec → δ → Nat → List String → Nat × List String × δ
  | [], db, n, errs => (n, errs, db)
  | m :: ms, db, n, errs =>
    match upsert m db with
    | .error e => sync_loop upsert post ms db n (errs ++ [syncErrMsg m.name e])
    | .ok db1 =>
      match post m db1 with
      | (db2, none) => sync_loop upsert post ms db2 (n + 1) errs
      | (db2, some e) => sync_loop upsert post ms db2 (n + 1) (errs ++ [syncErrMsg m.name e])

/-- `sync_all_missions()` from `fetcher.py`.  `fetched` is the result of
`fetch_crewed_missions()` (`Except.error` models a raised exception in
the outer `try`).  After the loop the source always logs
`("spacedevs", "success", missions_updated)` and leaves
`result["status"]` as `"success"`, even when per-mission errors were
collected. -/
def sync_all_missions {δ : Type} (upsert : MissionRec → δ → Except String δ)
    (post : MissionRec → δ → δ × Option String)
    (fetched : Except String (List MissionRec)) (db : δ) (log : List SyncLogRow) :
    SyncOutcome δ :=
  match fetched with
  | .error e =>
      { status := "error", missions_updated := 0, errors := [e], db := db
        log := log ++ [⟨"spacedevs", "error", 0, some e⟩] }
  | .ok missions =>
      let r := sync_loop upsert post missions db 0 []
      { status := "success", missions_updated := r.1, errors := r.2.1, db := r.2.2
        log := log ++ [⟨"spacedevs", "success", r.1, none⟩] }

/-! ## Clock-sampling model of `get_all_missions(active_only=True)`

`database.py` calls `datetime.now(timezone.utc)` afresh inside
`is_mission_active` for every mission and inside `sort_key` for every
key computation.  To reason about that, the functions below thread an
explicit clock `clock : Nat → Int` (the value of the `i`-th
`datetime.now` call of the invocation) and the index of the next sample,
mirroring the source's control flow: a sample is taken exactly where the
source reaches a `datetime.now(timezone.utc)` statement (i.e. only after
`fromisoformat` succeeded). -/

/-- `is_mission_active` with explicit clock sampling; returns the result
and the next sample index. -/
def is_mission_active_clk (fromiso : String → Option Int) (clock : Nat → Int)
    (m : MissionRec) (i : Nat) : Bool × Nat :=
  let status := lowerStr (m.status.getD "")
  let launch_date_str := m.launch_date
  if COMPLETED_STATUSES.contains status then
    if truthyS launch_date_str then
      match fromiso (replaceZ (launch_date_str.getD "")) with
      | some launch_date =>
          (decide (Int.fdiv (clock i - launch_date) 86400 ≤ 7), i + 1)
      | none => (false, i)
    else (false, i)
  else if truthyS launch_date_str then
    match fromiso (replaceZ (launch_date_str.getD "")) with
    | some launch_date =>
        let now := clock i
        (if now < launch_date then true
         else if Int.fdiv (now - launch_date) 86400 ≤ 200 then true
         else ACTIVE_STATUSES.contains status || status = "", i + 1)
    | none => (ACTIVE_STATUSES.contains status || status = "", i)
  else (ACTIVE_STATUSES.contains status || status = "", i)

/-- `sort_key` with explicit clock sampling. -/
def sort_key_clk (fromiso : String → Option Int) (clock : Nat → Int)
    (m : MissionRec) (i : Nat) : (Nat × Int) × Nat :=
  if truthyS m.launch_date then
    match fromiso (replaceZ (m.launch_date.getD "")) with
    | some launch_date =>
        let now := clock i
        (if now < launch_date then (0, launch_date)
         else (1, dtMaxSeconds - launch_date), i + 1)
    | none => ((2, dtMaxSeconds), i)
  else ((2, dtMaxSeconds), i)

/-- The list-comprehension filter of line 209, sampling the clock per
mission. -/
def filter_active_clk (fromiso : String → Option Int) (clock : Nat → Int) :
    List MissionRec → Nat → List MissionRec × Nat
  | [], i => ([], i)
  | m :: ms, i =>
    let r := is_mission_active_clk fromiso clock m i
    let rest := filter_active_clk fromiso clock ms r.2
    (if r.1 then m :: rest.1 else rest.1, rest.2)

/-- The key computation of `list.sort(key=sort_key)`: CPython evaluates
the key function once per element, in list order, before sorting. -/
def map_keys_clk (fromiso : String → Option Int) (clock : Nat → Int) :
    List MissionRec → Nat → List (MissionRec × (Nat × Int)) × Nat
  | [], i => ([], i)
  | m :: ms, i =>
    let r := sort_key_clk fromiso clock m i
    let rest := map_keys_clk fromiso clock ms r.2
    ((m, r.1) :: rest.1, rest.2)

/-- Lines 209–230 of `database.py` under the clock-sampling model:
filter with per-mission `now`, decorate with per-element `now`, stable
sort on the keys, undecorate.  Returns the ordered missions and the
total number of `datetime.now` samples the invocation consumed. -/
def classify_and_order_clk (fromiso : String → Option Int) (clock : Nat → Int)
    (rows : List MissionRec) : List MissionRec × Nat :=
  let f := filter_active_clk fromiso clock rows 0
  let d := map_keys_clk fromiso clock f.1 f.2
  ((d.1.insertionSort (fun p q => keyLe p.2 q.2 = true)).map Prod.fst, d.2)

/-! ## Concrete fixtures

`demoParse` tabulates `datetime.fromisoformat` on the timestamps the
fixtures use (seconds since the epoch; the fixture "now" is `0`, i.e.
1970-01-01T00:00:00+00:00, so the three dates are +3 days, +1 day and
−2 days). -/

/-- `datetime.fromisoformat` restricted to the three fixture inputs
(after the `Z → +00:00` replacement). -/
def demoParse : String → Option Int := fun s =>
  if s = "1970-01-04T00:00:00+00:00" then some 259200
  else if s = "1970-01-02T00:00:00+00:00" then some 86400
  else if s = "1969-12-30T00:00:00+00:00" then some (-172800)
  else none

/-- Mission A of the spec's ordering example: launch in 3 days. -/
def mA : MissionRec :=
  { id := "mission-a", name := "Mission A", slug := "mission-a",
    launch_date := some "1970-01-04T00:00:00Z", status := some "Go",
    image_url := none, patch_url := none, is_active := 1 }

/-- Mission B of the spec's ordering example: launch in 1 day. -/
def mB : MissionRec :=
  { id := "mission-b", name := "Mission B", slug := "mission-b",
    launch_date := some "1970-01-02T00:00:00Z", status := some "Go",
    image_url := none, patch_url := none, is_active := 1 }

/-- Mission C of the spec's ordering example: launched 2 days ago,
status `"Go"`. -/
def mC : MissionRec :=
  { id := "mission-c", name := "Mission C", slug := "mission-c",
    launch_date := some "1969-12-30T00:00:00Z", status := some "Go",
    image_url := none, patch_url := none, is_active := 1 }

/-- Mission D of the spec's ordering example: no launch timestamp,
empty status. -/
def mD : MissionRec :=
  { id := "mission-d", name := "Mission D", slug := "mission-d",
    launch_date := none, status := some "",
    image_url := none, patch_url := none, is_active := 1 }

/-- The fixture database for the ordering example. -/
def demoDb : List MissionRec := [mA, mB, mC, mD]

/-- A mission whose launch timestamp is unchanged by the `Z`
replacement and parses via `demoParse3`; used by the clock fixtures. -/
def mT (tag : String) (launch : String) : MissionRec :=
  { id := tag, name := tag, slug := tag,
    launch_date := some launch, status := some "Go",
    image_url := none, patch_url := none, is_active := 1 }

/-- Tabulated `fromisoformat` for the clock fixtures: three launch
times at seconds 100, 200 and 300. -/
def demoParse3 : String → Option Int := fun s =>
  if s = "launch-100" then some 100
  else if s = "launch-200" then some 200
  else if s = "launch-300" then some 300
  else none

/-- The three-mission fixture list for the clock model. -/
def demoRows3 : List MissionRec :=
  [mT "m100" "launch-100", mT "m200" "launch-200", mT "m300" "launch-300"]

/-- A clock that advances during the invocation: the three
classification samples and the `m300` key sample read instant 150, the
`m100` key sample reads 50, the `m200` key sample reads 250. -/
def demoClock : Nat → Int := fun i =>
  if i = 3 then 50 else if i = 4 then 250 else 150

/-- A completed-status mission whose launch timestamp is in the future
(instant 200 under `demoParse3`). -/
def mWitFuture : MissionRec :=
  { id := "wit-future", name := "Wit Future", slug := "wit-future",
    launch_date := some "launch-200", status := some "Success",
    image_url := none, patch_url := none, is_active := 1 }

/-- A completed-status mission with no launch timestamp at all. -/
def mWitCompleted : MissionRec :=
  { id := "wit-completed", name := "Wit Completed", slug := "wit-completed",
    launch_date := none, status := some "Success",
    image_url := none, patch_url := none, is_active := 1 }

/-- A fetched mission used by the sync fixtures. -/
def syncM (tag : String) : MissionRec :=
  { id := tag, name := tag, slug := tag,
    launch_date := none, status := some "Go",
    image_url := none, patch_url := none, is_active := 1 }

/-- An `upsert_mission` behaviour that raises exactly on the mission
with id `"sync-2"` and otherwise appends the row. -/
def syncUpsertDemo : MissionRec → List MissionRec → Except String (List MissionRec) :=
  fun m db => if m.id = "sync-2" then Except.error "db locked" else Except.ok (db ++ [m])

/-- A crew dict fixture. -/
def crewInput (nm : String) : CrewInput :=
  { name := some nm, role := some "Commander", agency := some "NASA",
    photo_url := none, photo := some "photo.jpg", bio := some "bio",
    bio_url := none, nasa_bio := some "nasa-bio", api_id := some "7" }

/-- A crew table holding one row for an unrelated mission. -/
def crewDb0 : List CrewRow :=
  [crewRowOf "other-mission" "T0" 0 (crewInput "Alice")]

/-! ## Spec-side ordering vocabulary (§4.1 of the spec)

These definitions follow the spec's description of the ordering —
partition the active subset into future / launched / dateless and order
each part — and are compared with the source-side `classify_and_order`
in the ordering theorem. -/

/-- The launch instant of a mission as the classifier sees it: `none`
when the column is NULL or empty or `fromisoformat` raises. -/
def launchTime (fromiso : String → Option Int) (m : MissionRec) : Option Int :=
  if truthyS m.launch_date then fromiso (replaceZ (m.launch_date.getD "")) else none

/-- The launch instant, defaulted (only read under proof that it is
present). -/
def launchTimeD (fromiso : String → Option Int) (m : MissionRec) : Int :=
  (launchTime fromiso m).getD 0

/-- Spec group (a): the launch timestamp parses and is strictly in the
future. -/
def isFutureLaunch (fromiso : String → Option Int) (now : Int) (m : MissionRec) : Bool :=
  match launchTime fromiso m with
  | some t => decide (now < t)
  | none => false

/-- Spec group (b): the launch timestamp parses and is not in the
future. -/
def isPastLaunch (fromiso : String → Option Int) (now : Int) (m : MissionRec) : Bool :=
  match launchTime fromiso m with
  | some t => !decide (now < t)
  | none => false

/-- Spec ordering of the active subset: future missions ascending by
launch, then launched missions descending by launch, then missions
without a usable launch timestamp in retrieval order. -/
def specOrder (fromiso : String → Option Int) (now : Int)
    (rows : List MissionRec) : List MissionRec :=
  let act := rows.filter (is_mission_active fromiso now)
  (act.filter (isFutureLaunch fromiso now)).insertionSort
      (fun a b => launchTimeD fromiso a ≤ launchTimeD fromiso b)
    ++ (act.filter (isPastLaunch fromiso now)).insertionSort
      (fun a b => launchTimeD fromiso b ≤ launchTimeD fromiso a)
    ++ act.filter (fun m => (launchTime fromiso m).isNone)

/-! ## Generic facts about the stable sort -/

theorem orderedInsert_append_of_rel {α : Type} (r : α → α → Prop) [DecidableRel r]
    (a : α) (l1 l2 : List α) (h : ∀ y ∈ l2, r a y) :
    (l1 ++ l2).orderedInsert r a = l1.orderedInsert r a ++ l2 := by
  induction l1 with
  | nil =>
    cases l2 with
    | nil => rfl
    | cons b bs => simp [List.orderedInsert, h b (by simp)]
  | cons c cs ih =>
    by_cases hc : r a c
    · simp [List.orderedInsert, hc]
    · simp [List.orderedInsert, hc, ih]

theorem orderedInsert_append_of_not_rel {α : Type} (r : α → α → Prop) [DecidableRel r]
    (a : α) (l1 l2 : List α) (h : ∀ y ∈ l1, ¬ r a y) :
    (l1 ++ l2).orderedInsert r a = l1 ++ l2.orderedInsert r a := by
  induction l1 with
  | nil => rfl
  | cons c cs ih =>
    have hc : ¬ r a c := h c (by simp)
    simp only [List.cons_append, List.orderedInsert, if_neg hc, List.append_eq]
    rw [ih (fun y hy => h y (by simp [hy]))]

theorem orderedInsert_rel_congr {α : Type} (r s : α → α → Prop)
    [DecidableRel r] [DecidableRel s] (a : α) (l : List α)
    (h : ∀ b ∈ l, r a b ↔ s a b) :
    l.orderedInsert r a = l.orderedInsert s a := by
  induction l with
  | nil => rfl
  | cons c cs ih =>
    by_cases hc : r a c
    · simp [List.orderedInsert, hc, (h c (by simp)).mp hc]
    · have hsc : ¬ s a c := fun hs => hc ((h c (by simp)).mpr hs)
      simp only [List.orderedInsert, if_neg hc, if_neg hsc]
      rw [ih (fun b hb => h b (by simp [hb]))]

theorem insertionSort_rel_congr {α : Type} (r s : α → α → Prop)
    [DecidableRel r] [DecidableRel s] (l : List α)
    (h : ∀ a ∈ l, ∀ b ∈ l, r a b ↔ s a b) :
    l.insertionSort r = l.insertionSort s := by
  induction l with
  | nil => rfl
  | cons c cs ih =>
    have hrec : cs.insertionSort r = cs.insertionSort s :=
      ih (fun a ha b hb => h a (by simp [ha]) b (by simp [hb]))
    simp only [List.insertionSort, hrec]
    exact orderedInsert_rel_congr r s c _ (fun b hb =>
      h c (by simp) b (by simp [(List.mem_insertionSort s).mp hb]))

theorem insertionSort_of_all_rel {α : Type} (r : α → α → Prop) [DecidableRel r]
    (l : List α) (h : ∀ a ∈ l, ∀ b ∈ l, r a b) :
    l.insertionSort r = l := by
  apply List.Sorted.insertionSort_eq
  induction l with
  | nil => exact List.sorted_nil
  | cons c cs ih =>
    rw [List.sorted_cons]
    exact ⟨fun b hb => h c (by simp) b (by simp [hb]),
      ih (fun a ha b hb => h a (by simp [ha]) b (by simp [hb]))⟩

/-- A stable sort whose comparison is lexicographic group-first splits
into the sorted group blocks, groups in increasing order. -/
theorem insertionSort_three_way {α : Type} (r : α → α → Prop) [DecidableRel r]
    (g : α → Nat)
    (hlt : ∀ a b, g a < g b → r a b) (hge : ∀ a b, g b < g a → ¬ r a b)
    (l : List α) :
    l.insertionSort r =
      (l.filter (fun x => g x = 0)).insertionSort r
      ++ (l.filter (fun x => g x = 1)).insertionSort r
      ++ (l.filter (fun x => 2 ≤ g x)).insertionSort r := by
  induction l with
  | nil => rfl
  | cons x xs ih =>
    have memA : ∀ y ∈ (xs.filter (fun z => g z = 0)).insertionSort r, g y = 0 := by
      intro y hy
      exact of_decide_eq_true (List.mem_filter.mp ((List.mem_insertionSort r).mp hy)).2
    have memB : ∀ y ∈ (xs.filter (fun z => g z = 1)).insertionSort r, g y = 1 := by
      intro y hy
      exact of_decide_eq_true (List.mem_filter.mp ((List.mem_insertionSort r).mp hy)).2
    have memC : ∀ y ∈ (xs.filter (fun z => 2 ≤ g z)).insertionSort r, 2 ≤ g y := by
      intro y hy
      exact of_decide_eq_true (List.mem_filter.mp ((List.mem_insertionSort r).mp hy)).2
    simp only [List.insertionSort, ih]
    rcases hx : g x with _ | gx1
    · have f0 : (x :: xs).filter (fun z => g z = 0) = x :: xs.filter (fun z => g z = 0) := by
        simp [List.filter_cons, hx]
      have f1 : (x :: xs).filter (fun z => g z = 1) = xs.filter (fun z => g z = 1) := by
        simp [List.filter_cons, hx]
      have f2 : (x :: xs).filter (fun z => 2 ≤ g z) = xs.filter (fun z => 2 ≤ g z) := by
        simp [List.filter_cons, hx]
      rw [f0, f1, f2, List.insertionSort, List.append_assoc]
      rw [orderedInsert_append_of_rel r x _ _ (by
        intro y hy
        rcases List.mem_append.mp hy with hy1 | hy2
        · exact hlt x y (by rw [hx, memB y hy1]; omega)
        · exact hlt x y (by have := memC y hy2; omega))]
      rw [List.append_assoc]
    · rcases gx1 with _ | gx2
      · have f0 : (x :: xs).filter (fun z => g z = 0) = xs.filter (fun z => g z = 0) := by
          simp [List.filter_cons, hx]
        have f1 : (x :: xs).filter (fun z => g z = 1) = x :: xs.filter (fun z => g z = 1) := by
          simp [List.filter_cons, hx]
        have f2 : (x :: xs).filter (fun z => 2 ≤ g z) = xs.filter (fun z => 2 ≤ g z) := by
          simp [List.filter_cons, hx]
        rw [f0, f1, f2, List.insertionSort, List.append_assoc]
        rw [orderedInsert_append_of_not_rel r x _ _ (by
          intro y hy
          exact hge x y (by rw [hx, memA y hy]; omega))]
        rw [orderedInsert_append_of_rel r x _ _ (by
          intro y hy
          exact hlt x y (by have := memC y hy; omega))]
        rw [← List.append_assoc]
      · have f0 : (x :: xs).filter (fun z => g z = 0) = xs.filter (fun z => g z = 0) := by
          simp [List.filter_cons, hx]
        have f1 : (x :: xs).filter (fun z => g z = 1) = xs.filter (fun z => g z = 1) := by
          simp [List.filter_cons, hx]
        have f2 : (x :: xs).filter (fun z => 2 ≤ g z) = x :: xs.filter (fun z => 2 ≤ g z) := by
          have h2 : (2 : Nat) ≤ g x := by omega
          simp [List.filter_cons, h2]
        rw [f0, f1, f2, List.insertionSort, List.append_assoc]
        rw [orderedInsert_append_of_not_rel r x _ _ (by
          intro y hy
          exact hge x y (by rw [hx, memA y hy]; omega))]
        rw [orderedInsert_append_of_not_rel r x _ _ (by
          intro y hy
          exact hge x y (by rw [hx, memB y hy]; omega))]
        rw [← List.append_assoc]

/-! ## Bridging `sort_key` and the spec's partition -/

theorem sort_key_of_future {fromiso : String → Option Int} {now : Int} {m : MissionRec}
    (h : isFutureLaunch fromiso now m = true) :
    sort_key fromiso now m = (0, launchTimeD fromiso m) := by
  unfold isFutureLaunch launchTime at h
  unfold sort_key launchTimeD launchTime
  by_cases ht : truthyS m.launch_date
  · simp only [ht, if_true] at h ⊢
    cases hf : fromiso (replaceZ (m.launch_date.getD "")) with
    | none => rw [hf] at h; simp at h
    | some t =>
      rw [hf] at h
      simp only [decide_eq_true_eq] at h
      simp [h]
  · simp [ht] at h

theorem sort_key_of_past {fromiso : String → Option Int} {now : Int} {m : MissionRec}
    (h : isPastLaunch fromiso now m = true) :
    sort_key fromiso now m = (1, dtMaxSeconds - launchTimeD fromiso m) := by
  unfold isPastLaunch launchTime at h
  unfold sort_key launchTimeD launchTime
  by_cases ht : truthyS m.launch_date
  · simp only [ht, if_true] at h ⊢
    cases hf : fromiso (replaceZ (m.launch_date.getD "")) with
    | none => rw [hf] at h; simp at h
    | some t =>
      rw [hf] at h
      simp only [Bool.not_eq_true', decide_eq_false_iff_not] at h
      simp [h]
  · simp [ht] at h

theorem sort_key_of_none {fromiso : String → Option Int} {now : Int} {m : MissionRec}
    (h : (launchTime fromiso m).isNone = true) :
    sort_key fromiso now m = (2, dtMaxSeconds) := by
  unfold launchTime at h
  unfold sort_key
  by_cases ht : truthyS m.launch_date
  · simp only [ht, if_true] at h ⊢
    cases hf : fromiso (replaceZ (m.launch_date.getD "")) with
    | none => simp
    | some t => rw [hf] at h; simp at h
  · simp [ht]

theorem sort_key_fst_eq_zero (fromiso : String → Option Int) (now : Int) (m : MissionRec) :
    decide ((sort_key fromiso now m).1 = 0) = isFutureLaunch fromiso now m := by
  unfold sort_key isFutureLaunch launchTime
  by_cases ht : truthyS m.launch_date
  · simp only [ht, if_true]
    cases hf : fromiso (replaceZ (m.launch_date.getD "")) with
    | none => simp
    | some t => by_cases hn : now < t <;> simp [hn]
  · simp [ht]

theorem sort_key_fst_eq_one (fromiso : String → Option Int) (now : Int) (m : MissionRec) :
    decide ((sort_key fromiso now m).1 = 1) = isPastLaunch fromiso now m := by
  unfold sort_key isPastLaunch launchTime
  by_cases ht : truthyS m.launch_date
  · simp only [ht, if_true]
    cases hf : fromiso (replaceZ (m.launch_date.getD "")) with
    | none => simp
    | some t => by_cases hn : now < t <;> simp [hn]
  · simp [ht]

theorem sort_key_fst_ge_two (fromiso : String → Option Int) (now : Int) (m : MissionRec) :
    decide (2 ≤ (sort_key fromiso now m).1) = (launchTime fromiso m).isNone := by
  unfold sort_key launchTime
  by_cases ht : truthyS m.launch_date
  · simp only [ht, if_true]
    cases hf : fromiso (replaceZ (m.launch_date.getD "")) with
    | none => simp
    | some t => by_cases hn : now < t <;> simp [hn]
  · simp [ht]

theorem keyLe_of_fst_lt {p q : Nat × Int} (h : p.1 < q.1) : keyLe p q = true := by
  simp [keyLe, h]

theorem keyLe_of_fst_gt {p q : Nat × Int} (h : q.1 < p.1) : ¬ keyLe p q = true := by
  simp [keyLe]
  omega

/-- The source's stable sort on `sort_key` agrees with the spec's
three-block ordering. -/
theorem classify_and_order_eq_specOrder (fromiso : String → Option Int)
    (now : Int) (rows : List MissionRec) :
    classify_and_order fromiso now rows = specOrder fromiso now rows := by
  unfold classify_and_order specOrder
  rw [insertionSort_three_way
    (fun a b => keyLe (sort_key fromiso now a) (sort_key fromiso now b) = true)
    (fun m => (sort_key fromiso now m).1)
    (fun a b h => keyLe_of_fst_lt h) (fun a b h => keyLe_of_fst_gt h)]
  have hfilterA :
      (rows.filter (is_mission_active fromiso now)).filter
        (fun z => (sort_key fromiso now z).1 = 0)
      = (rows.filter (is_mission_active fromiso now)).filter
        (isFutureLaunch fromiso now) :=
    List.filter_congr (fun x _ => sort_key_fst_eq_zero fromiso now x)
  have hfilterB :
      (rows.filter (is_mission_active fromiso now)).filter
        (fun z => (sort_key fromiso now z).1 = 1)
      = (rows.filter (is_mission_active fromiso now)).filter
        (isPastLaunch fromiso now) :=
    List.filter_congr (fun x _ => sort_key_fst_eq_one fromiso now x)
  have hfilterC :
      (rows.filter (is_mission_active fromiso now)).filter
        (fun z => 2 ≤ (sort_key fromiso now z).1)
      = (rows.filter (is_mission_active fromiso now)).filter
        (fun m => (launchTime fromiso m).isNone) :=
    List.filter_congr (fun x _ => sort_key_fst_ge_two fromiso now x)
  rw [hfilterA, hfilterB, hfilterC]
  have hA :
      ((rows.filter (is_mission_active fromiso now)).filter
        (isFutureLaunch fromiso now)).insertionSort
          (fun a b => keyLe (sort_key fromiso now a) (sort_key fromiso now b) = true)
      = ((rows.filter (is_mission_active fromiso now)).filter
        (isFutureLaunch fromiso now)).insertionSort
          (fun a b => launchTimeD fromiso a ≤ launchTimeD fromiso b) := by
    apply insertionSort_rel_congr
    intro a ha b hb
    have ka := sort_key_of_future (List.mem_filter.mp ha).2
    have kb := sort_key_of_future (List.mem_filter.mp hb).2
    rw [ka, kb]
    simp [keyLe]
  have hB :
      ((rows.filter (is_mission_active fromiso now)).filter
        (isPastLaunch fromiso now)).insertionSort
          (fun a b => keyLe (sort_key fromiso now a) (sort_key fromiso now b) = true)
      = ((rows.filter (is_mission_active fromiso now)).filter
        (isPastLaunch fromiso now)).insertionSort
          (fun a b => launchTimeD fromiso b ≤ launchTimeD fromiso a) := by
    apply insertionSort_rel_congr
    intro a ha b hb
    have ka := sort_key_of_past (List.mem_filter.mp ha).2
    have kb := sort_key_of_past (List.mem_filter.mp hb).2
    rw [ka, kb]
    simp only [keyLe]
    constructor
    · intro h
      simp at h
      omega
    · intro h
      simp
      omega
  have hC :
      ((rows.filter (is_mission_active fromiso now)).filter
        (fun m => (launchTime fromiso m).isNone)).insertionSort
          (fun a b => keyLe (sort_key fromiso now a) (sort_key fromiso now b) = true)
      = (rows.filter (is_mission_active fromiso now)).filter
          (fun m => (launchTime fromiso m).isNone) := by
    apply insertionSort_of_all_rel
    intro a ha b hb
    have ka := @sort_key_of_none fromiso now a (List.mem_filter.mp ha).2
    have kb := @sort_key_of_none fromiso now b (List.mem_filter.mp hb).2
    rw [ka, kb]
    simp [keyLe]
  rw [hA, hB, hC]

/-! ## The clock model at a fixed instant -/

theorem is_mission_active_clk_const (fromiso : String → Option Int) (now : Int)
    (m : MissionRec) (i : Nat) :
    (is_mission_active_clk fromiso (fun _ => now) m i).1 = is_mission_active fromiso now m := by
  unfold is_mission_active_clk is_mission_active
  by_cases h1 : COMPLETED_STATUSES.contains (lowerStr (m.status.getD "")) <;>
    by_cases h2 : truthyS m.launch_date <;>
      simp only [h1, h2, if_true, if_false, Bool.false_eq_true, ite_true, ite_false] <;>
        first
        | rfl
        | (cases hf : fromiso (replaceZ (m.launch_date.getD "")) <;> simp [hf])

theorem filter_active_clk_const (fromiso : String → Option Int) (now : Int)
    (l : List MissionRec) (i : Nat) :
    (filter_active_clk fromiso (fun _ => now) l i).1
      = l.filter (is_mission_active fromiso now) := by
  induction l generalizing i with
  | nil => rfl
  | cons m ms ih =>
    simp [filter_active_clk, List.filter_cons, is_mission_active_clk_const, ih]

theorem sort_key_clk_const (fromiso : String → Option Int) (now : Int)
    (m : MissionRec) (i : Nat) :
    (sort_key_clk fromiso (fun _ => now) m i).1 = sort_key fromiso now m := by
  unfold sort_key_clk sort_key
  by_cases h2 : truthyS m.launch_date <;>
    simp only [h2, if_true, if_false, ite_true, ite_false] <;>
      cases hf : fromiso (replaceZ (m.launch_date.getD "")) <;> simp [hf]

theorem map_keys_clk_const (fromiso : String → Option Int) (now : Int)
    (l : List MissionRec) (i : Nat) :
    (map_keys_clk fromiso (fun _ => now) l i).1
      = l.map (fun m => (m, sort_key fromiso now m)) := by
  induction l generalizing i with
  | nil => rfl
  | cons m ms ih => simp [map_keys_clk, sort_key_clk_const, ih]

/-- At a fixed clock instant the clock-sampling model collapses to the
pure `classify_and_order`: re-running at the same instant gives the
same classification and the same ordering. -/
theorem classify_and_order_clk_const (fromiso : String → Option Int) (now : Int)
    (rows : List MissionRec) :
    (classify_and_order_clk fromiso (fun _ => now) rows).1
      = classify_and_order fromiso now rows := by
  unfold classify_and_order_clk classify_and_order
  simp only [filter_active_clk_const, map_keys_clk_const]
  have hcond : ∀ p ∈ (rows.filter (is_mission_active fromiso now)).map
      (fun m => (m, sort_key fromiso now m)),
      ∀ q ∈ (rows.filter (is_mission_active fromiso now)).map
      (fun m => (m, sort_key fromiso now m)),
      (keyLe p.2 q.2 = true) ↔
        (keyLe (sort_key fromiso now p.1) (sort_key fromiso now q.1) = true) := by
    intro p hp q hq
    rcases List.mem_map.mp hp with ⟨mp, _, hmp⟩
    rcases List.mem_map.mp hq with ⟨mq, _, hmq⟩
    rw [← hmp, ← hmq]
  have hmap : ((rows.filter (is_mission_active fromiso now)).map
      (fun m => (m, sort_key fromiso now m))).map Prod.fst
      = rows.filter (is_mission_active fromiso now) := by
    rw [List.map_map]
    exact List.map_id _
  rw [List.map_insertionSort
    (fun p q : MissionRec × (Nat × Int) => keyLe p.2 q.2 = true)
    (fun a b : MissionRec => keyLe (sort_key fromiso now a) (sort_key fromiso now b) = true)
    Prod.fst _ hcond, hmap]

/-! ## Arithmetic and searching helpers -/

theorem fdiv_days_le_of_future {now t : Int} (h : now < t) :
    Int.fdiv (now - t) 86400 ≤ 7 := by
  have h1 : Int.fdiv (now - t) 86400 ≤ Int.fdiv (-1) 86400 := by
    rw [Int.fdiv_eq_ediv _ (by norm_num), Int.fdiv_eq_ediv _ (by norm_num)]
    exact Int.ediv_le_ediv (by norm_num) (by omega)
  have h2 : Int.fdiv (-1) 86400 = -1 := by decide
  omega

theorem searchAt_iff (p : List Char → Bool) (l : List Char) :
    searchAt p l = true ↔ ∃ l2, l2 <:+ l ∧ p l2 = true := by
  induction l with
  | nil =>
    simp only [searchAt, List.suffix_nil]
    constructor
    · intro h
      exact ⟨[], ⟨rfl, h⟩⟩
    · rintro ⟨l2, rfl, hp⟩
      exact hp
  | cons c cs ih =>
    simp only [searchAt, Bool.or_eq_true, ih]
    constructor
    · rintro (h | ⟨l2, hs, hp⟩)
      · exact ⟨c :: cs, List.suffix_refl _, h⟩
      · exact ⟨l2, hs.trans (List.suffix_cons c cs), hp⟩
    · rintro ⟨l2, hs, hp⟩
      rcases List.suffix_cons_iff.mp hs with rfl | hs2
      · exact Or.inl hp
      · exact Or.inr ⟨l2, hs2, hp⟩

theorem startsWithL_iff (n : List Char) : ∀ l : List Char,
    (startsWithL n l = true ↔ ∃ rest, l = n ++ rest) := by
  induction n with
  | nil =>
    intro l
    simp [startsWithL]
  | cons a as ih =>
    intro l
    cases l with
    | nil =>
      simp [startsWithL]
    | cons b bs =>
      simp only [startsWithL, Bool.and_eq_true, decide_eq_true_eq, ih, List.cons_append]
      constructor
      · rintro ⟨rfl, rest, rfl⟩
        exact ⟨rest, rfl⟩
      · rintro ⟨rest, heq⟩
        injection heq with h1 h2
        exact ⟨h1.symm, rest, h2⟩

theorem searchAt_of_suffix {p : List Char → Bool} {l2 l : List Char}
    (hs : l2 <:+ l) (hp : p l2 = true) : searchAt p l = true :=
  (searchAt_iff p l).mpr ⟨l2, hs, hp⟩

/-- Each row written by `upsert_crew` carries its enumeration index as
`sort_order`, so the insert order is already sorted. -/
theorem sorted_crewRows (mid now : String) (k : Nat) (L : List CrewInput) :
    List.Sorted (fun a b : CrewRow => a.sort_order ≤ b.sort_order)
      ((List.enumFrom k L).map (fun p => crewRowOf mid now p.1 p.2)) := by
  induction L generalizing k with
  | nil => exact List.sorted_nil
  | cons c cs ih =>
    rw [List.enumFrom_cons, List.map_cons, List.sorted_cons]
    constructor
    · intro b hb
      rcases List.mem_map.mp hb with ⟨⟨j, x⟩, hmem, rfl⟩
      have hj := (List.mem_enumFrom hmem).1
      simp only [crewRowOf]
      omega
    · exact ih (k + 1)

/-! ## Claim theorems -/

/-- **C1.** For every mission whose launch timestamp parses and is
strictly later than `now`, `is_mission_active` classifies it ACTIVE,
regardless of its status string — including when the lower-cased status
is in the completed set `{"success", "failure", "partial failure"}`. -/
theorem claim1_future_launch_is_active (fromiso : String → Option Int)
    (now t : Int) (m : MissionRec)
    (h1 : truthyS m.launch_date = true)
    (h2 : fromiso (replaceZ (m.launch_date.getD "")) = some t)
    (h3 : now < t) :
    is_mission_active fromiso now m = true := by
  unfold is_mission_active
  by_cases hc : lowerStr (m.status.getD "") ∈ COMPLETED_STATUSES
  · simp [hc, h1, h2, fdiv_days_le_of_future h3]
  · simp [hc, h1, h2, h3]

/-- Witness for C1: a `"Success"`-status mission launching at instant
200, evaluated at `now = 100`, is classified ACTIVE. -/
theorem claim1_witness :
    truthyS mWitFuture.launch_date = true
    ∧ demoParse3 (replaceZ (mWitFuture.launch_date.getD "")) = some 200
    ∧ ((100 : Int) < 200)
    ∧ is_mission_active demoParse3 100 mWitFuture = true :=
  ⟨by decide, by decide, by decide,
    claim1_future_launch_is_active demoParse3 100 200 mWitFuture
      (by decide) (by decide) (by decide)⟩

/-- **C2.** For every mission whose lower-cased status is in the
completed set and whose launch timestamp is absent (or empty) or fails
to parse, `is_mission_active` classifies it INACTIVE; the embedded
function is total, mirroring the source's `except: pass` that keeps the
parse failure local. -/
theorem claim2_completed_without_recency_inactive
    (fromiso : String → Option Int) (now : Int) (m : MissionRec)
    (hc : COMPLETED_STATUSES.contains (lowerStr (m.status.getD "")) = true)
    (h : truthyS m.launch_date = false
      ∨ fromiso (replaceZ (m.launch_date.getD "")) = none) :
    is_mission_active fromiso now m = false := by
  have hc2 : lowerStr (m.status.getD "") ∈ COMPLETED_STATUSES := by simpa using hc
  unfold is_mission_active
  rcases h with h | h
  · simp [hc2, h]
  · by_cases ht : truthyS m.launch_date <;> simp [hc2, ht, h]

/-- Witness for C2: a `"Success"`-status mission with no launch
timestamp is INACTIVE. -/
theorem claim2_witness :
    COMPLETED_STATUSES.contains (lowerStr (mWitCompleted.status.getD "")) = true
    ∧ truthyS mWitCompleted.launch_date = false
    ∧ is_mission_active demoParse3 100 mWitCompleted = false :=
  ⟨by decide, by decide,
    claim2_completed_without_recency_inactive demoParse3 100 mWitCompleted
      (by decide) (Or.inl (by decide))⟩

/-- **C3.** `get_all_missions(active_only=True)` orders the ACTIVE
subset as: future launches ascending by launch timestamp, then the
remaining active missions with a parseable launch timestamp descending,
then active missions without a usable launch timestamp in original
retrieval order (`specOrder` spells the spec's description out); on the
spec's concrete example A (+3 d), B (+1 d), C (−2 d, "Go"),
D (no date, "") the output is [B, A, C, D]. -/
theorem claim3_active_ordering :
    (∀ (fromiso : String → Option Int) (now : Int) (db : List MissionRec),
        get_all_missions fromiso now db true
          = specOrder fromiso now (sqlQuery db))
    ∧ get_all_missions demoParse 0 demoDb true = [mB, mA, mC, mD] :=
  ⟨fun fromiso now db => classify_and_order_eq_specOrder fromiso now (sqlQuery db),
    by decide⟩

/-- Witness for C3: the general ordering equation instantiated on the
concrete fixture database. -/
theorem claim3_witness :
    get_all_missions demoParse 0 demoDb true
      = specOrder demoParse 0 (sqlQuery demoDb) :=
  claim3_active_ordering.1 demoParse 0 demoDb

/-- **C4 (amended).** At a fixed clock instant the filter-and-sort of
`get_all_missions(active_only=True)` collapses to the pure, deterministic
`classify_and_order`, so two runs over the same mission sequence at the
same instant yield identical classification and ordering — but the code
re-samples `datetime.now` per mission rather than once per invocation
(see the counterexample). -/
theorem claim4_fixed_instant_deterministic :
    ∀ (fromiso : String → Option Int) (now : Int) (rows : List MissionRec),
      (classify_and_order_clk fromiso (fun _ => now) rows).1
        = classify_and_order fromiso now rows :=
  fun fromiso now rows => classify_and_order_clk_const fromiso now rows

/-- Witness for C4: the fixed-instant collapse instantiated on the
concrete three-mission fixture at instant 150. -/
theorem claim4_witness :
    (classify_and_order_clk demoParse3 (fun _ => 150) demoRows3).1
      = classify_and_order demoParse3 150 demoRows3 :=
  claim4_fixed_instant_deterministic demoParse3 150 demoRows3

/-- **C4 counterexample.** On a three-mission fixture the invocation
consumes six `datetime.now` samples, not one, and a clock that advances
mid-invocation produces an ordering that differs from the run whose
samples all show the first sampled instant — refuting "now is sampled
once per invocation". -/
theorem claim4_counterexample :
    (classify_and_order_clk demoParse3 demoClock demoRows3).2 = 6
    ∧ (classify_and_order_clk demoParse3 demoClock demoRows3).1
        ≠ (classify_and_order_clk demoParse3 (fun _ => demoClock 0) demoRows3).1 :=
  ⟨by decide, by decide⟩

/-- **C5.** For every mission whose identifier (the slug of its name)
has an entry in `LOCAL_PATCHES`, patch resolution returns the local
asset path — both in the sync path (even when a differing cached patch
URL is stored on the record) and in `get_mission_patch`, regardless of
fallback-table or API results. -/
theorem claim5_local_patch_overrides (name p : String)
    (cached launch_image api_patch : Option String)
    (h : assocLookup LOCAL_PATCHES (slugify name) = some p) :
    mission_patch_on_sync name cached launch_image api_patch = some p
    ∧ get_mission_patch name launch_image api_patch = some p := by
  constructor
  · unfold mission_patch_on_sync
    simp [h]
  · unfold get_mission_patch
    simp [h]

/-- Witness for C5: id `"artemis-ii"` with a differing cached URL and an
API result still resolves to the curated local asset. -/
theorem claim5_witness :
    assocLookup LOCAL_PATCHES (slugify "Artemis II")
      = some "/assets/patches/artemis-ii-patch.png"
    ∧ mission_patch_on_sync "Artemis II" (some "https://example.com/stale.png")
        (some "https://example.com/launch.jpg") (some "https://example.com/api.png")
      = some "/assets/patches/artemis-ii-patch.png"
    ∧ get_mission_patch "Artemis II" (some "https://example.com/launch.jpg")
        (some "https://example.com/api.png")
      = some "/assets/patches/artemis-ii-patch.png" :=
  ⟨by decide,
    (claim5_local_patch_overrides "Artemis II" _
      (some "https://example.com/stale.png") (some "https://example.com/launch.jpg")
      (some "https://example.com/api.png") (by decide)).1,
    (claim5_local_patch_overrides "Artemis II" _
      (some "https://example.com/stale.png") (some "https://example.com/launch.jpg")
      (some "https://example.com/api.png") (by decide)).2⟩

/-- **C7 (bug exhibit).** When every tier misses — `"Dragonfly Test
Flight"` has no local override, matches no fallback key, and the API
yields nothing (or only a photo URL that fails validation) —
`get_mission_patch` returns `None` and never the launch image; but the
`/api/missions/{id}` endpoint then substitutes the launch photograph as
`mission_patch`, contradicting the spec (and `fetcher.py`'s own stated
policy that launch images are never used as patches). -/
theorem claim7_patch_exhaustion_and_endpoint_substitution :
    get_mission_patch "Dragonfly Test Flight"
      (some "https://www.nasa.gov/launch-photo.jpg") none = none
    ∧ get_mission_patch "Dragonfly Test Flight"
      (some "https://www.nasa.gov/launch-photo.jpg")
      (some "https://www.nasa.gov/media/images/dragonfly.jpg") = none
    ∧ detail_mission_patch none (some "https://www.nasa.gov/launch-photo.jpg")
      = some "https://www.nasa.gov/launch-photo.jpg" :=
  ⟨by decide, by decide, rfl⟩

/-- **C8.** `sync_all_missions` continues past per-mission failures:
with three fetched missions where upserting the second raises, the
first and third are still written (the final store is the one produced
by their two successful upserts), the result reports
`missions_updated = 2` with exactly the one collected error, and the
sync is logged with status `"success"`. -/
theorem claim8_sync_continues_past_failure {δ : Type}
    (upsert : MissionRec → δ → Except String δ)
    (post : MissionRec → δ → δ × Option String)
    (m1 m2 m3 : MissionRec) (db0 d1 d3 : δ) (log0 : List SyncLogRow) (e : String)
    (hpost : ∀ m db, post m db = (db, none))
    (h1 : upsert m1 db0 = Except.ok d1)
    (h2 : upsert m2 d1 = Except.error e)
    (h3 : upsert m3 d1 = Except.ok d3) :
    sync_all_missions upsert post (Except.ok [m1, m2, m3]) db0 log0 =
      { status := "success", missions_updated := 2,
        errors := [syncErrMsg m2.name e], db := d3,
        log := log0 ++ [⟨"spacedevs", "success", 2, none⟩] } := by
  unfold sync_all_missions
  simp [sync_loop, h1, h2, h3, hpost]

/-- Witness for C8: the concrete three-mission batch where the second
upsert raises `"db locked"`. -/
theorem claim8_witness :
    sync_all_missions syncUpsertDemo (fun _ db => (db, none))
        (Except.ok [syncM "sync-1", syncM "sync-2", syncM "sync-3"]) [] [] =
      { status := "success", missions_updated := 2,
        errors := [syncErrMsg (syncM "sync-2").name "db locked"],
        db := [syncM "sync-1", syncM "sync-3"],
        log := [⟨"spacedevs", "success", 2, none⟩] } :=
  claim8_sync_continues_past_failure syncUpsertDemo (fun _ db => (db, none))
    (syncM "sync-1") (syncM "sync-2") (syncM "sync-3")
    [] [syncM "sync-1"] [syncM "sync-1", syncM "sync-3"] [] "db locked"
    (fun _ _ => rfl) rfl rfl rfl

/-- **C9.** `upsert_crew(mission_id, crew_list)` replaces the crew of
exactly that mission: afterwards `get_crew(mission_id)` returns exactly
the new members in the given order with `sort_order` re-derived as
`0..n-1` (an empty list leaves the mission with no crew, the `n = 0`
case), and the crew rows of every other mission are unchanged. -/
theorem claim9_crew_replaced_per_mission (db : List CrewRow) (mid : String)
    (L : List CrewInput) (now : String) :
    get_crew (upsert_crew db mid L now) mid
      = L.enum.map (fun p => crewRowOf mid now p.1 p.2)
    ∧ (get_crew (upsert_crew db mid L now) mid).map (fun r => r.sort_order)
      = List.range L.length
    ∧ ∀ other, other ≠ mid →
        get_crew (upsert_crew db mid L now) other = get_crew db other := by
  have hmain : get_crew (upsert_crew db mid L now) mid
      = L.enum.map (fun p => crewRowOf mid now p.1 p.2) := by
    unfold get_crew upsert_crew
    rw [List.filter_append]
    have hkept : (db.filter (fun r => r.mission_id ≠ mid)).filter
        (fun r => r.mission_id = mid) = [] := by
      rw [List.filter_eq_nil_iff]
      intro a ha
      have h2 := (List.mem_filter.mp ha).2
      simp only [decide_eq_true_eq] at h2 ⊢
      exact h2
    have hnew : (L.enum.map (fun p => crewRowOf mid now p.1 p.2)).filter
        (fun r => r.mission_id = mid)
        = L.enum.map (fun p => crewRowOf mid now p.1 p.2) := by
      rw [List.filter_eq_self]
      intro a ha
      rcases List.mem_map.mp ha with ⟨q, _, rfl⟩
      simp [crewRowOf]
    rw [hkept, hnew, List.nil_append]
    exact List.Sorted.insertionSort_eq (sorted_crewRows mid now 0 L)
  refine ⟨hmain, ?_, ?_⟩
  · rw [hmain, List.map_map]
    have hcomp : ((fun r : CrewRow => r.sort_order)
        ∘ fun p : Nat × CrewInput => crewRowOf mid now p.1 p.2) = Prod.fst := by
      funext q
      rfl
    rw [hcomp, List.enum_map_fst]
  · intro other hother
    unfold get_crew upsert_crew
    rw [List.filter_append]
    have hnew0 : (L.enum.map (fun p => crewRowOf mid now p.1 p.2)).filter
        (fun r => r.mission_id = other) = [] := by
      rw [List.filter_eq_nil_iff]
      intro a ha
      rcases List.mem_map.mp ha with ⟨q, _, rfl⟩
      simp [crewRowOf]
      exact fun hmem => hother hmem.symm
    have hkept2 : (db.filter (fun r => r.mission_id ≠ mid)).filter
        (fun r => r.mission_id = other) = db.filter (fun r => r.mission_id = other) := by
      rw [List.filter_filter]
      apply List.filter_congr
      intro a _
      by_cases h : a.mission_id = other
      · subst h
        simp [hother]
      · simp [h]
    rw [hnew0, hkept2, List.append_nil]

/-- Witness for C9: replacing the crew of `"mission-x"` with two members
yields exactly those two rows with `sort_order` 0 and 1 and leaves
`"other-mission"`'s crew untouched. -/
theorem claim9_witness :
    get_crew (upsert_crew crewDb0 "mission-x"
        [crewInput "Bob", crewInput "Carol"] "T1") "mission-x"
      = [crewRowOf "mission-x" "T1" 0 (crewInput "Bob"),
         crewRowOf "mission-x" "T1" 1 (crewInput "Carol")]
    ∧ get_crew (upsert_crew crewDb0 "mission-x"
        [crewInput "Bob", crewInput "Carol"] "T1") "other-mission"
      = get_crew crewDb0 "other-mission" :=
  ⟨(claim9_crew_replaced_per_mission crewDb0 "mission-x"
      [crewInput "Bob", crewInput "Carol"] "T1").1,
    (claim9_crew_replaced_per_mission crewDb0 "mission-x"
      [crewInput "Bob", crewInput "Carol"] "T1").2.2 "other-mission" (by decide)⟩

/-- **C10.** Every mission returned by `get_all_missions` — in either
query mode — has its stored `is_active` flag equal to 1; rows with
`is_active = 0` are filtered out by the SQL `WHERE is_active = 1` before
any further processing. -/
theorem claim10_only_active_flag_rows (fromiso : String → Option Int)
    (now : Int) (db : List MissionRec) (active_only : Bool) (m : MissionRec)
    (hm : m ∈ get_all_missions fromiso now db active_only) :
    m.is_active = 1 := by
  have hq : ∀ x ∈ sqlQuery db, x.is_active = 1 := by
    intro x hx
    have hx2 := (List.mem_insertionSort _).mp hx
    exact of_decide_eq_true (List.mem_filter.mp hx2).2
  unfold get_all_missions at hm
  cases active_only with
  | false => exact hq m hm
  | true =>
    unfold classify_and_order at hm
    have hm2 := (List.mem_insertionSort _).mp hm
    exact hq m (List.mem_filter.mp hm2).1

/-- Witness for C10: the dateless fixture mission is returned by the
unfiltered query and indeed carries `is_active = 1`. -/
theorem claim10_witness :
    mD ∈ get_all_missions demoParse 0 [mD] false ∧ mD.is_active = 1 :=
  ⟨by decide, claim10_only_active_flag_rows demoParse 0 [mD] false mD (by decide)⟩

/-- **C6.** `is_valid_patch_url` decides every candidate URL by the
spec's ordered rules: reject photo-identifier patterns first (so any URL
containing `jsc2025e034746` is rejected outright), reject generic
`media/images/` gallery paths lacking a patch keyword, accept on a patch
keyword (so a URL containing `/patch/` that carries no photo-identifier
is accepted), accept Wikipedia/Wikimedia or repository-local
`/assets/` paths, and otherwise reject — including the empty URL. -/
theorem claim6_patch_url_validation (url : String) :
    (is_valid_patch_url url = true ↔
      (url ≠ "" ∧ hasPhotoPattern (lowerStr url) = false
        ∧ ¬(containsSub "media/images/" (lowerStr url) = true
            ∧ containsSub "patch" (lowerStr url) = false)
        ∧ (patch_indicators.any (fun k => containsSub k (lowerStr url)) = true
            ∨ containsSub "wikipedia" (lowerStr url) = true
            ∨ containsSub "wikimedia" (lowerStr url) = true
            ∨ startsWithStr "/assets/" url = true)))
    ∧ (containsSub "jsc2025e034746" (lowerStr url) = true →
        is_valid_patch_url url = false)
    ∧ (containsSub "/patch/" (lowerStr url) = true →
        hasPhotoPattern (lowerStr url) = false →
        is_valid_patch_url url = true) := by
  refine ⟨?_, ?_, ?_⟩
  · unfold is_valid_patch_url
    by_cases hu : url = "" <;>
      by_cases h1 : hasPhotoPattern (lowerStr url) = true <;>
        by_cases h2 : containsSub "media/images/" (lowerStr url) = true <;>
          by_cases h3 : containsSub "patch" (lowerStr url) = true <;>
            by_cases h4 : patch_indicators.any
              (fun k => containsSub k (lowerStr url)) = true <;>
              by_cases h5 : containsSub "wikipedia" (lowerStr url) = true <;>
                by_cases h6 : containsSub "wikimedia" (lowerStr url) = true <;>
                  by_cases h7 : startsWithStr "/assets/" url = true <;>
                    simp_all [patch_indicators]
  · intro h
    by_cases hu : url = ""
    · rw [hu] at h
      exact absurd h (by decide)
    · have hphoto : hasPhotoPattern (lowerStr url) = true := by
        simp only [containsSub] at h
        rcases (searchAt_iff _ _).mp h with ⟨l2, hs, hstart⟩
        rcases (startsWithL_iff _ _).mp hstart with ⟨rest, rfl⟩
        have hj : patJsc ("jsc2025e034746".data ++ rest) = true := rfl
        have hsearch := searchAt_of_suffix hs hj
        simp [hasPhotoPattern, hsearch]
      unfold is_valid_patch_url
      simp [hu, hphoto]
  · intro h hphoto
    by_cases hu : url = ""
    · rw [hu] at h
      exact absurd h (by decide)
    · have hpatch : containsSub "patch" (lowerStr url) = true := by
        simp only [containsSub] at h ⊢
        rcases (searchAt_iff _ _).mp h with ⟨l2, hs, hstart⟩
        rcases (startsWithL_iff _ _).mp hstart with ⟨rest, rfl⟩
        apply (searchAt_iff _ _).mpr
        refine ⟨'p' :: 'a' :: 't' :: 'c' :: 'h' :: '/' :: rest, ?_, ?_⟩
        · exact List.IsSuffix.trans ⟨['/'], rfl⟩ hs
        · rfl
      unfold is_valid_patch_url
      simp [hu, hphoto, hpatch, patch_indicators]

/-- Witness for C6: a NASA photo-code URL is rejected, a
`/patch/` URL is accepted. -/
theorem claim6_witness :
    is_valid_patch_url "https://images.nasa.gov/jsc2025e034746-orig.jpg" = false
    ∧ is_valid_patch_url "https://ll.thespacedevs.com/media/patch/artemis-ii.png" = true :=
  ⟨(claim6_patch_url_validation
      "https://images.nasa.gov/jsc2025e034746-orig.jpg").2.1 (by decide),
    (claim6_patch_url_validation
      "https://ll.thespacedevs.com/media/patch/artemis-ii.png").2.2
      (by decide) (by decide)⟩

end ArtemisOps
